import Mathlib

/-! Shallow embedding of the generational handle registry (`Handle`,
`HandleRegister`; declared in `sources/core/handle.hpp`, implemented in the
unnamed translation unit `part_007`) and of the dense columnar store
(`math::VectorSOA`, second half of the unnamed header `part_006`) of the
creizyz/sandbox repository.

Modelling conventions:
- `uint32_t` values are `Nat`; where the source relies on 32-bit wrap-around
  (`m_generations[id]++`, `static_cast<uint32_t>(m_generations.size())`), the
  embedding takes the result `% 4294967296` explicitly.
- `std::vector<uint32_t>` is `List Nat`; element reads that the source performs
  through unchecked `operator[]` are modelled by `List.getD` at positions that
  are provably in bounds on the paths where the source reads them, and
  operations on which the source can perform a genuinely out-of-bounds access
  (`HandleRegister::insert`'s free-id pop loop calling `back()`/`pop_back()` on
  an empty vector, or `m_idToIndex[id]` past the end) return `Option`, with
  `none` meaning the source's execution is undefined at that point.
- `throw std::invalid_argument` (the spec's RangeError) in `reserve`/`resize`
  is modelled with `Except RangeError`; in the source both range checks
  precede every mutation of the member vectors, so the thrown branch carries
  no partial mutation and returning `Except.error` is exact.
- `std::vector::reserve` changes no content, so the embedding of
  `HandleRegister::reserve` returns the registry unchanged on success. -/

def u32size : Nat := 4294967296

def u32max : Nat := 4294967295

/-- `Handle::invalid_id` and `HandleRegister::invalid_id`: `uint32_t` max. -/
def invalid_id : Nat := 4294967295

/-- `HandleRegister::invalid_index`: `uint32_t` max. -/
def invalid_index : Nat := 4294967295

/-- The `Handle` value type of `sources/core/handle.hpp`: an id plus a
generation, defaulting to the null handle `{ invalid_id, 0 }`. -/
structure Handle where
  id : Nat := invalid_id
  generation : Nat := 0
deriving DecidableEq, Repr

/-- The four parallel arrays owned by `HandleRegister` (member names without
the `m_` prefix). A default-constructed registry has all four empty. -/
structure HandleRegister where
  idToIndex : List Nat := []
  indexToId : List Nat := []
  generations : List Nat := []
  freeIds : List Nat := []
deriving DecidableEq, Repr

/-- The file-local helper `ensure_size(container, n, fill)` of `part_007`:
`container.resize(n, fill)` when `container.size() < n`, otherwise no change.
Growing a `std::vector` with `resize(n, fill)` appends copies of `fill`. -/
def ensure_size (container : List Nat) (n : Nat) (fill : Nat) : List Nat :=
  if container.length < n then container ++ List.replicate (n - container.length) fill
  else container

/-- `std::vector<uint32_t>::resize(n, fill)`: truncate to `n` when shrinking,
append copies of `fill` when growing. `resize(n)` is `resize(n, 0)` because a
value-initialized `uint32_t` is `0`. -/
def listResize (l : List Nat) (n : Nat) (fill : Nat) : List Nat :=
  if l.length ≤ n then l ++ List.replicate (n - l.length) fill
  else l.take n

/-- The error raised by `HandleRegister::reserve`/`resize` (the source throws
`std::invalid_argument`; the spec calls this condition a RangeError). -/
inductive RangeError where
  | rangeError
deriving DecidableEq, Repr

instance : DecidableEq (Except RangeError HandleRegister) := fun a b =>
  match a, b with
  | .ok x, .ok y => decidable_of_iff (x = y) (by simp)
  | .error x, .error y => decidable_of_iff (x = y) (by simp)
  | .ok _, .error _ => isFalse (by simp)
  | .error _, .ok _ => isFalse (by simp)

namespace HandleRegister

/-- `HandleRegister::is_valid` (`part_007`, lines 146-166), with the source's
two short-circuiting condition blocks kept in order: every element read is
guarded by the bound checks of an earlier disjunct. -/
def is_valid (r : HandleRegister) (handle : Handle) : Bool :=
  if handle.id = invalid_id ∨ r.idToIndex.length ≤ handle.id ∨
     r.generations.length ≤ handle.id ∨
     r.generations.getD handle.id 0 ≠ handle.generation then
    false
  else if r.idToIndex.getD handle.id 0 = invalid_index ∨
          r.indexToId.length ≤ r.idToIndex.getD handle.id 0 ∨
          r.indexToId.getD (r.idToIndex.getD handle.id 0) 0 ≠ handle.id then
    false
  else
    true

/-- `HandleRegister::get_index` (`part_007`, lines 168-176). -/
def get_index (r : HandleRegister) (handle : Handle) : Nat :=
  if r.is_valid handle = false then invalid_index
  else r.idToIndex.getD handle.id 0

/-- `HandleRegister::reserve` (`part_007`, lines 16-32): both range checks
precede the four `std::vector::reserve` calls, and `reserve` never changes a
vector's contents, so success returns the registry unchanged. -/
def reserve (r : HandleRegister) (handleCapacity indexCapacity : Nat) :
    Except RangeError HandleRegister :=
  if u32max < handleCapacity then .error .rangeError
  else if u32max < indexCapacity then .error .rangeError
  else .ok r

/-- `HandleRegister::resize` (`part_007`, lines 34-57). The guarded
`std::erase_if` keeps exactly the free ids below `handleCapacity` and runs
only when `handleCapacity < m_freeIds.size()`; afterwards the four vectors are
resized, `m_freeIds.resize(handleCapacity)` filling with value-initialized
zeros. -/
def resize (r : HandleRegister) (handleCapacity indexCapacity : Nat) :
    Except RangeError HandleRegister :=
  if u32max < handleCapacity then .error .rangeError
  else if u32max < indexCapacity then .error .rangeError
  else
    let freeIds1 :=
      if handleCapacity < r.freeIds.length then
        r.freeIds.filter (fun id => id < handleCapacity)
      else r.freeIds
    .ok { idToIndex := listResize r.idToIndex handleCapacity invalid_index,
          generations := listResize r.generations handleCapacity 0,
          indexToId := listResize r.indexToId indexCapacity invalid_id,
          freeIds := listResize freeIds1 handleCapacity 0 }

/-- The free-id scan inside `HandleRegister::insert` (`part_007`, lines
70-78): starting from `id = invalid_id`, while `id` is out of range of
`m_generations` or `m_idToIndex`, pop the back of the free-id stack into `id`.
The stack is passed back-first (reversed); `none` models the out-of-bounds
`back()` on an empty vector when every popped id stays out of range. -/
def insertLoop (genLen idxLen : Nat) : Nat → List Nat → Option (Nat × List Nat)
  | id, [] =>
      if id < genLen ∧ id < idxLen then some (id, []) else none
  | id, x :: rest =>
      if id < genLen ∧ id < idxLen then some (id, x :: rest)
      else insertLoop genLen idxLen x rest

/-- `HandleRegister::insert` (`part_007`, lines 59-92). The reverse map is
grown to cover `index`; an already-owned index returns the null handle; then a
free id is reused if the scan finds one in range, else a fresh id
`static_cast<uint32_t>(m_generations.size())` is allocated by growing the
forward-map and generation arrays. `none` models the two undefined-behaviour
points: the scan popping an empty stack, and `m_idToIndex[id]` past the end
when the truncated fresh id does not fit the forward map. -/
def insert (r : HandleRegister) (index : Nat) : Option (Handle × HandleRegister) :=
  let grown := ensure_size r.indexToId (index + 1) invalid_id
  if grown.getD index 0 ≠ invalid_id then
    some ({ id := invalid_id, generation := 0 }, { r with indexToId := grown })
  else
    let popped : Option (Nat × List Nat) :=
      if r.freeIds.isEmpty then some (invalid_id, [])
      else insertLoop r.generations.length r.idToIndex.length invalid_id r.freeIds.reverse
    popped.bind fun p =>
      if p.1 = invalid_id then
        let newId := r.generations.length % u32size
        let idToIndex1 := r.idToIndex ++ [invalid_index]
        let generations1 := r.generations ++ [0]
        if newId < idToIndex1.length then
          some ({ id := newId, generation := generations1.getD newId 0 },
                { idToIndex := idToIndex1.set newId index,
                  indexToId := grown.set index newId,
                  generations := generations1,
                  freeIds := p.2.reverse })
        else none
      else
        some ({ id := p.1, generation := r.generations.getD p.1 0 },
              { idToIndex := r.idToIndex.set p.1 index,
                indexToId := grown.set index p.1,
                generations := r.generations,
                freeIds := p.2.reverse })

/-- `HandleRegister::update` (`part_007`, lines 94-122): validity check, then
`ensure_size` grows the reverse map, then the already-owned target index is
refused (the grown reverse map persists, though refusal implies it did not
actually grow), then the old reverse entry is cleared only if still owned, and
both mappings are written. -/
def update (r : HandleRegister) (handle : Handle) (index : Nat) :
    Bool × HandleRegister :=
  if r.is_valid handle = false then (false, r)
  else
    let id := handle.id
    let oldIndex := r.idToIndex.getD id 0
    let grown := ensure_size r.indexToId (index + 1) invalid_id
    if grown.getD index 0 ≠ invalid_id then (false, { r with indexToId := grown })
    else
      let cleared :=
        if oldIndex ≠ invalid_index ∧ oldIndex < grown.length ∧
           grown.getD oldIndex 0 = id then
          grown.set oldIndex invalid_id
        else grown
      (true, { r with idToIndex := r.idToIndex.set id index,
                      indexToId := cleared.set index id })

/-- `HandleRegister::erase` (`part_007`, lines 124-144): no-op on an invalid
handle; otherwise clear the reverse entry if still owned, clear the forward
entry, push the id on the free stack, and increment the `uint32_t` generation
(with wrap-around). -/
def erase (r : HandleRegister) (handle : Handle) : HandleRegister :=
  if r.is_valid handle = false then r
  else
    let id := handle.id
    let index := r.idToIndex.getD id 0
    let cleared :=
      if index ≠ invalid_index ∧ index < r.indexToId.length ∧
         r.indexToId.getD index 0 = id then
        r.indexToId.set index invalid_id
      else r.indexToId
    { idToIndex := r.idToIndex.set id invalid_index,
      indexToId := cleared,
      generations := r.generations.set id ((r.generations.getD id 0 + 1) % u32size),
      freeIds := r.freeIds ++ [id] }

/-- Modelled from the spec: `HandleRegister::get_handle` is called by
`math::VectorSOA::erase` (`part_006`, line 385) but is declared and defined
nowhere in the repository. Per the spec, the store finds "the handle that
owned `last` (via the registry's reverse map)", so `get_handle index` is the
handle `{ index_to_id[index], generations[index_to_id[index]] }`. -/
def get_handle (r : HandleRegister) (index : Nat) : Handle :=
  let id := r.indexToId.getD index invalid_id
  { id := id, generation := r.generations.getD id 0 }

end HandleRegister

/-- `math::VectorSOA<N, T>` (`part_006`, lines 204-417): `N` parallel columns
(the outer list has one entry per column), a capacity, a size, and the
embedded `HandleRegister`. A column entry `none` models an element of a
`new T[...]` buffer that was never written (indeterminate value for the
arithmetic payloads the store is instantiated with). -/
structure VectorSOA (α : Type) where
  data : List (List (Option α)) := []
  capacity : Nat := 0
  size : Nat := 0
  handles : HandleRegister := { }
deriving DecidableEq, Repr

namespace VectorSOA

/-- `math::VectorSOA::reallocate` (`part_006`, lines 395-409): each column is
replaced by a fresh uninitialized buffer of the new capacity into which the
first `min(m_size, capacity)` old elements are copied, and `m_size` is clamped
to the new capacity. -/
def reallocate {α : Type} (s : VectorSOA α) (capacity : Nat) : VectorSOA α :=
  { s with
    data := s.data.map (fun col =>
      col.take (min s.size capacity) ++
        List.replicate (capacity - min s.size capacity) (none : Option α)),
    capacity := capacity,
    size := min s.size capacity }

/-- `math::VectorSOA::reserve` (`part_006`, lines 286-295): no-op when not
growing; otherwise `reallocate` then `m_handles.reserve(capacity, capacity)`.
In the source the registry's range check runs after reallocation, so the
columns of the state discarded by `Except.error` were already reallocated; no
claim depends on the store's state after that throw. -/
def reserve {α : Type} (s : VectorSOA α) (capacity : Nat) :
    Except RangeError (VectorSOA α) :=
  if capacity ≤ s.capacity then .ok s
  else
    let s1 := reallocate s capacity
    match HandleRegister.reserve s1.handles capacity capacity with
    | .error e => .error e
    | .ok h => .ok { s1 with handles := h }

/-- `math::VectorSOA::emplace` (`part_006`, lines 347-363): grow geometrically
(double, minimum 1) when full, insert `static_cast<uint32_t>(m_size)` into the
registry, increment the size and return the handle. The source never writes
`values` into the columns — the write site holds only a `// TODO` comment — so
the embedding leaves every column unchanged. `none` models both a RangeError
escaping the growth path and the registry insert's undefined behaviour. -/
def emplace {α : Type} (s : VectorSOA α) (_values : List α) :
    Option (Handle × VectorSOA α) :=
  let grownE : Except RangeError (VectorSOA α) :=
    if s.size = s.capacity then reserve s (if 0 < s.capacity then s.capacity * 2 else 1)
    else .ok s
  match grownE with
  | .error _ => none
  | .ok s1 =>
    match s1.handles.insert (s1.size % u32size) with
    | none => none
    | some (handle, h1) =>
      some (handle, { s1 with handles := h1, size := s1.size + 1 })

/-- `math::VectorSOA::erase` (`part_006`, lines 365-392). The source body
names its parameter `handle` but reads `h`, which is declared nowhere; the
embedding reads the parameter. For a non-last row, every column's last live
element is copied into the erased slot, the moved row's handle is fetched with
the spec-modelled `get_handle`, `update` is called on it (its `bool` result is
discarded, as in the source), and only then is the erased handle retired and
the size decremented. -/
def erase {α : Type} (s : VectorSOA α) (handle : Handle) : Bool × VectorSOA α :=
  if s.handles.is_valid handle = false then (false, s)
  else
    let index := s.handles.get_index handle
    let last := s.size - 1
    if index ≠ last then
      let data1 := s.data.map (fun col => col.set index (col.getD last none))
      let moved := HandleRegister.get_handle s.handles last
      let handles1 := (s.handles.update moved index).2
      let handles2 := handles1.erase handle
      (true, { s with data := data1, handles := handles2, size := s.size - 1 })
    else
      (true, { s with handles := s.handles.erase handle, size := s.size - 1 })

end VectorSOA

/-! List access helper lemmas, proved by induction so they do not depend on
library lemma naming. -/

theorem getD_set_self : ∀ (l : List Nat) (i v d : Nat), i < l.length →
    (l.set i v).getD i d = v
  | [], _, _, _, h => absurd h (by simp)
  | _ :: _, 0, _, _, _ => by simp
  | _ :: l, i + 1, v, d, h => by
      simp only [List.set_cons_succ, List.getD_cons_succ]
      exact getD_set_self l i v d (by simpa using h)

theorem getD_set_ne : ∀ (l : List Nat) (i j v d : Nat), i ≠ j →
    (l.set i v).getD j d = l.getD j d
  | [], _, _, _, _, _ => by simp
  | _ :: _, 0, 0, _, _, h => absurd rfl h
  | _ :: _, 0, _ + 1, _, _, _ => by simp
  | _ :: _, _ + 1, 0, _, _, _ => by simp
  | _ :: l, i + 1, j + 1, v, d, h => by
      simp only [List.set_cons_succ, List.getD_cons_succ]
      exact getD_set_ne l i j v d (fun e => h (by omega))

theorem getD_append_left : ∀ (l m : List Nat) (i d : Nat), i < l.length →
    (l ++ m).getD i d = l.getD i d
  | [], _, _, _, h => absurd h (by simp)
  | _ :: _, _, 0, _, _ => by simp
  | _ :: l, m, i + 1, d, h => by
      simp only [List.cons_append, List.getD_cons_succ]
      exact getD_append_left l m i d (by simpa using h)

theorem getD_append_ge : ∀ (l m : List Nat) (i d : Nat), l.length ≤ i →
    (l ++ m).getD i d = m.getD (i - l.length) d
  | [], _, _, _, _ => by simp
  | _ :: _, _, 0, _, h => by simp at h
  | _ :: l, m, i + 1, d, h => by
      simp only [List.cons_append, List.getD_cons_succ, List.length_cons]
      rw [getD_append_ge l m i d (by simpa using h)]
      congr 1
      omega

theorem getD_append_length : ∀ (l : List Nat) (x d : Nat),
    (l ++ [x]).getD l.length d = x
  | [], _, _ => by simp
  | a :: l, x, d => by
      simp only [List.cons_append, List.length_cons, List.getD_cons_succ]
      exact getD_append_length l x d

theorem getD_replicate : ∀ (n a i d : Nat), i < n →
    (List.replicate n a).getD i d = a
  | 0, _, _, _, h => absurd h (by omega)
  | n + 1, a, 0, d, _ => by simp [List.replicate_succ]
  | n + 1, a, i + 1, d, h => by
      simp only [List.replicate_succ, List.getD_cons_succ]
      exact getD_replicate n a i d (by omega)

theorem getD_of_length_le : ∀ (l : List Nat) (i d : Nat), l.length ≤ i →
    l.getD i d = d
  | [], _, _, _ => by simp
  | _ :: _, 0, _, h => by simp at h
  | _ :: l, i + 1, d, h => by
      simp only [List.getD_cons_succ]
      exact getD_of_length_le l i d (by simpa using h)

theorem ensure_size_length (l : List Nat) (n f : Nat) :
    (ensure_size l n f).length = max l.length n := by
  unfold ensure_size
  split_ifs with h
  · simp only [List.length_append, List.length_replicate]
    omega
  · omega

theorem ensure_size_getD_lt (l : List Nat) (n f i d : Nat) (h : i < l.length) :
    (ensure_size l n f).getD i d = l.getD i d := by
  unfold ensure_size
  split_ifs with hc
  · exact getD_append_left l _ i d h
  · rfl

theorem ensure_size_getD_ge (l : List Nat) (n f i d : Nat)
    (h1 : l.length ≤ i) (h2 : i < n) :
    (ensure_size l n f).getD i d = f := by
  unfold ensure_size
  rw [if_pos (by omega)]
  rw [getD_append_ge l _ i d h1]
  exact getD_replicate _ f _ d (by omega)

theorem ensure_size_of_le (l : List Nat) (n f : Nat) (h : n ≤ l.length) :
    ensure_size l n f = l := by
  unfold ensure_size
  rw [if_neg (by omega)]

theorem insertLoop_bounds : ∀ (g x id : Nat) (rev : List Nat) (p : Nat × List Nat),
    HandleRegister.insertLoop g x id rev = some p → p.1 < g ∧ p.1 < x
  | g, x, id, [], p, h => by
      unfold HandleRegister.insertLoop at h
      split_ifs at h with hc
      · simp only [Option.some.injEq] at h
        subst h
        exact hc
  | g, x, id, y :: rev, p, h => by
      unfold HandleRegister.insertLoop at h
      split_ifs at h with hc
      · simp only [Option.some.injEq] at h
        subst h
        exact hc
      · exact insertLoop_bounds g x y rev p h

theorem is_valid_iff (r : HandleRegister) (h : Handle) :
    r.is_valid h = true ↔
      h.id ≠ invalid_id ∧ h.id < r.idToIndex.length ∧
      h.id < r.generations.length ∧
      r.generations.getD h.id 0 = h.generation ∧
      r.idToIndex.getD h.id 0 ≠ invalid_index ∧
      r.idToIndex.getD h.id 0 < r.indexToId.length ∧
      r.indexToId.getD (r.idToIndex.getD h.id 0) 0 = h.id := by
  unfold HandleRegister.is_valid
  split_ifs with hA hB
  · simp only [Bool.false_eq_true, false_iff]
    intro hc
    obtain ⟨c1, c2, c3, c4, c5, c6, c7⟩ := hc
    rcases hA with h1 | h1 | h1 | h1
    · exact c1 h1
    · omega
    · omega
    · exact h1 c4
  · simp only [Bool.false_eq_true, false_iff]
    intro hc
    obtain ⟨c1, c2, c3, c4, c5, c6, c7⟩ := hc
    rcases hB with h1 | h1 | h1
    · exact c5 h1
    · omega
    · exact h1 c7
  · simp only [true_iff]
    push_neg at hA hB
    exact ⟨hA.1, by omega, by omega, hA.2.2.2, hB.1, by omega, hB.2.2⟩

theorem succ_mod_u32_ne (g : Nat) : (g + 1) % u32size ≠ g := by
  have hu : u32size = 4294967296 := rfl
  intro he
  have h1 : (g + 1) % u32size < u32size := Nat.mod_lt _ (by omega)
  rw [he] at h1
  rcases Nat.lt_or_ge (g + 1) u32size with hl | hg
  · rw [Nat.mod_eq_of_lt hl] at he
    omega
  · have h2 : g + 1 = u32size := by omega
    rw [h2, Nat.mod_self] at he
    omega

theorem erase_eq_of_valid (r : HandleRegister) (h : Handle)
    (hv : r.is_valid h = true) :
    r.erase h =
      { idToIndex := r.idToIndex.set h.id invalid_index,
        indexToId := r.indexToId.set (r.idToIndex.getD h.id 0) invalid_id,
        generations := r.generations.set h.id
          ((r.generations.getD h.id 0 + 1) % u32size),
        freeIds := r.freeIds ++ [h.id] } := by
  obtain ⟨c1, c2, c3, c4, c5, c6, c7⟩ := (is_valid_iff r h).1 hv
  unfold HandleRegister.erase
  rw [if_neg (by simp [hv])]
  simp only []
  rw [if_pos ⟨c5, c6, c7⟩]

/-- C4: for every registry state and every currently valid handle `h`, after
`erase(h)` the handle is invalid, `get_index` on it yields `INVALID_INDEX`,
`generations[h.id]` has been incremented (as a `uint32_t`, so every previously
issued handle carrying the old generation is invalidated), the forward mapping
of `h.id` is cleared, and `h.id` is pushed onto the free-id stack; erasing an
already-invalid handle leaves the registry completely unchanged. -/
theorem c4_erase_contract (r : HandleRegister) (h : Handle) :
    (r.is_valid h = true →
      (r.erase h).is_valid h = false ∧
      (r.erase h).get_index h = invalid_index ∧
      (r.erase h).generations.getD h.id 0 =
        (r.generations.getD h.id 0 + 1) % u32size ∧
      (r.erase h).idToIndex.getD h.id 0 = invalid_index ∧
      (r.erase h).freeIds = r.freeIds ++ [h.id]) ∧
    (r.is_valid h = false → r.erase h = r) := by
  constructor
  · intro hv
    obtain ⟨c1, c2, c3, c4, c5, c6, c7⟩ := (is_valid_iff r h).1 hv
    rw [erase_eq_of_valid r h hv]
    have hgen : (HandleRegister.mk (r.idToIndex.set h.id invalid_index)
        (r.indexToId.set (r.idToIndex.getD h.id 0) invalid_id)
        (r.generations.set h.id ((r.generations.getD h.id 0 + 1) % u32size))
        (r.freeIds ++ [h.id])).generations.getD h.id 0 =
        (r.generations.getD h.id 0 + 1) % u32size := by
      exact getD_set_self _ _ _ _ (by simpa using c3)
    have hinv : (HandleRegister.mk (r.idToIndex.set h.id invalid_index)
        (r.indexToId.set (r.idToIndex.getD h.id 0) invalid_id)
        (r.generations.set h.id ((r.generations.getD h.id 0 + 1) % u32size))
        (r.freeIds ++ [h.id])).is_valid h = false := by
      cases hvv : (HandleRegister.mk (r.idToIndex.set h.id invalid_index)
          (r.indexToId.set (r.idToIndex.getD h.id 0) invalid_id)
          (r.generations.set h.id ((r.generations.getD h.id 0 + 1) % u32size))
          (r.freeIds ++ [h.id])).is_valid h with
      | false => rfl
      | true =>
        obtain ⟨d1, d2, d3, d4, d5, d6, d7⟩ := (is_valid_iff _ h).1 hvv
        rw [hgen, c4] at d4
        exact absurd d4 (succ_mod_u32_ne _)
    refine ⟨hinv, ?_, hgen, ?_, rfl⟩
    · unfold HandleRegister.get_index
      rw [if_pos hinv]
    · exact getD_set_self _ _ _ _ (by simpa using c2)
  · intro hv
    unfold HandleRegister.erase
    rw [if_pos hv]

theorem c4_erase_contract_witness :
    (HandleRegister.erase
        { idToIndex := [0], indexToId := [0], generations := [0], freeIds := [] }
        { id := 0, generation := 0 }).is_valid { id := 0, generation := 0 } = false :=
  ((c4_erase_contract _ _).1 (by decide)).1

/-- C9: `reserve` and `resize` raise the RangeError exactly when a requested
capacity exceeds the 32-bit index space `2^32 - 1`; both range checks precede
every mutation in the source, so the error leaves the registry untouched, and
a successful `reserve` returns the contents unchanged. -/
theorem c9_reserve_resize_range_check (r : HandleRegister) (hc ic : Nat) :
    (r.reserve hc ic = .error .rangeError ↔ u32max < hc ∨ u32max < ic) ∧
    (∀ r2, r.reserve hc ic = .ok r2 → r2 = r) ∧
    (r.resize hc ic = .error .rangeError ↔ u32max < hc ∨ u32max < ic) := by
  refine ⟨?_, ?_, ?_⟩
  · unfold HandleRegister.reserve
    split_ifs with h1 h2
    · exact iff_of_true rfl (Or.inl h1)
    · exact iff_of_true rfl (Or.inr h2)
    · exact iff_of_false (by simp) (by omega)
  · intro r2 hok
    unfold HandleRegister.reserve at hok
    split_ifs at hok
    simp only [Except.ok.injEq] at hok
    exact hok.symm
  · unfold HandleRegister.resize
    split_ifs with h1 h2
    · exact iff_of_true rfl (Or.inl h1)
    · exact iff_of_true rfl (Or.inr h2)
    · exact iff_of_false (by simp) (by omega)

theorem c9_reserve_resize_range_check_witness :
    HandleRegister.reserve { } 4294967296 0 = .error .rangeError :=
  (c9_reserve_resize_range_check { } 4294967296 0).1.mpr (Or.inl (by decide))

theorem update_eq_of_valid_unowned (r : HandleRegister) (h : Handle) (i : Nat)
    (hv : r.is_valid h = true)
    (hun : (ensure_size r.indexToId (i + 1) invalid_id).getD i 0 = invalid_id) :
    r.update h i =
      (true,
        { r with
          idToIndex := r.idToIndex.set h.id i,
          indexToId := ((ensure_size r.indexToId (i + 1) invalid_id).set
              (r.idToIndex.getD h.id 0) invalid_id).set i h.id }) := by
  obtain ⟨c1, c2, c3, c4, c5, c6, c7⟩ := (is_valid_iff r h).1 hv
  unfold HandleRegister.update
  rw [if_neg (by simp [hv])]
  simp only []
  rw [if_neg (by rw [hun]; simp)]
  rw [if_pos ?_]
  refine ⟨c5, ?_, ?_⟩
  · rw [ensure_size_length]
    omega
  · rw [ensure_size_getD_lt _ _ _ _ _ c6]
    exact c7

theorem update_eq_of_valid_owned (r : HandleRegister) (h : Handle) (i : Nat)
    (hv : r.is_valid h = true)
    (hown : (ensure_size r.indexToId (i + 1) invalid_id).getD i 0 ≠ invalid_id) :
    r.update h i = (false, r) := by
  have hlen : i < r.indexToId.length := by
    by_contra hh
    push_neg at hh
    rw [ensure_size_getD_ge _ _ _ _ _ hh (by omega)] at hown
    exact hown rfl
  unfold HandleRegister.update
  rw [if_neg (by simp [hv])]
  simp only []
  rw [if_pos hown]
  rw [ensure_size_of_le _ _ _ (by omega)]

/-- C6 (amended): on a valid handle, `update(h, new_index)` succeeds iff
`new_index` is currently unowned by ANY id — the source also refuses a
`new_index` owned by `h`'s own id, which is where the claim's "different id"
wording fails (see the counterexample theorem). On success `get_index(h)`
equals `new_index` and `h`'s old index becomes unowned; on failure, and on an
invalid handle, it returns `false` with the registry unchanged. -/
theorem c6_update_contract (r : HandleRegister) (h : Handle) (i : Nat) :
    (r.is_valid h = false → r.update h i = (false, r)) ∧
    (r.is_valid h = true →
      ((r.update h i).1 = true ↔
        (ensure_size r.indexToId (i + 1) invalid_id).getD i 0 = invalid_id) ∧
      ((ensure_size r.indexToId (i + 1) invalid_id).getD i 0 = invalid_id →
        (r.update h i).2.get_index h = i ∧
        (r.update h i).2.indexToId.getD (r.idToIndex.getD h.id 0) 0 = invalid_id) ∧
      ((ensure_size r.indexToId (i + 1) invalid_id).getD i 0 ≠ invalid_id →
        r.update h i = (false, r))) := by
  constructor
  · intro hv
    unfold HandleRegister.update
    rw [if_pos hv]
  · intro hv
    obtain ⟨c1, c2, c3, c4, c5, c6, c7⟩ := (is_valid_iff r h).1 hv
    refine ⟨?_, ?_, update_eq_of_valid_owned r h i hv⟩
    · by_cases hun : (ensure_size r.indexToId (i + 1) invalid_id).getD i 0 = invalid_id
      · rw [update_eq_of_valid_unowned r h i hv hun]
        exact iff_of_true rfl hun
      · rw [update_eq_of_valid_owned r h i hv hun]
        exact iff_of_false (by simp) hun
    · intro hun
      have hgold : (ensure_size r.indexToId (i + 1) invalid_id).getD
          (r.idToIndex.getD h.id 0) 0 = h.id := by
        rw [ensure_size_getD_lt _ _ _ _ _ c6]
        exact c7
      have hne : r.idToIndex.getD h.id 0 ≠ i := by
        intro he
        rw [he] at hgold
        exact c1 (hgold.symm.trans hun)
      have holdlen : r.idToIndex.getD h.id 0 <
          (ensure_size r.indexToId (i + 1) invalid_id).length := by
        rw [ensure_size_length]
        omega
      have hilen : i < (ensure_size r.indexToId (i + 1) invalid_id).length := by
        rw [ensure_size_length]
        omega
      have hcleared :
          ((((ensure_size r.indexToId (i + 1) invalid_id).set
              (r.idToIndex.getD h.id 0) invalid_id).set i h.id)).getD
            (r.idToIndex.getD h.id 0) 0 = invalid_id := by
        rw [getD_set_ne _ _ _ _ _ (fun e => hne e.symm)]
        exact getD_set_self _ _ _ _ (by simpa using holdlen)
      have hidx : (r.idToIndex.set h.id i).getD h.id 0 = i :=
        getD_set_self _ _ _ _ (by simpa using c2)
      rw [update_eq_of_valid_unowned r h i hv hun]
      refine ⟨?_, hcleared⟩
      by_cases hii : i = invalid_index
      · have hval2 : HandleRegister.is_valid
            { r with
              idToIndex := r.idToIndex.set h.id i,
              indexToId := ((ensure_size r.indexToId (i + 1) invalid_id).set
                  (r.idToIndex.getD h.id 0) invalid_id).set i h.id }
            h = false := by
          cases hvv : HandleRegister.is_valid
              { r with
                idToIndex := r.idToIndex.set h.id i,
                indexToId := ((ensure_size r.indexToId (i + 1) invalid_id).set
                    (r.idToIndex.getD h.id 0) invalid_id).set i h.id }
              h with
          | false => rfl
          | true =>
            obtain ⟨d1, d2, d3, d4, d5, d6, d7⟩ := (is_valid_iff _ h).1 hvv
            have d5' : (r.idToIndex.set h.id i).getD h.id 0 ≠ invalid_index := d5
            rw [hidx] at d5'
            exact absurd hii d5'
        show HandleRegister.get_index
            { r with
              idToIndex := r.idToIndex.set h.id i,
              indexToId := ((ensure_size r.indexToId (i + 1) invalid_id).set
                  (r.idToIndex.getD h.id 0) invalid_id).set i h.id }
            h = i
        unfold HandleRegister.get_index
        rw [if_pos hval2, hii]
      · have hval2 : HandleRegister.is_valid
            { r with
              idToIndex := r.idToIndex.set h.id i,
              indexToId := ((ensure_size r.indexToId (i + 1) invalid_id).set
                  (r.idToIndex.getD h.id 0) invalid_id).set i h.id }
            h = true := by
          apply (is_valid_iff _ h).2
          refine ⟨c1, ?_, c3, c4, ?_, ?_, ?_⟩
          · show h.id < (r.idToIndex.set h.id i).length
            simpa using c2
          · show (r.idToIndex.set h.id i).getD h.id 0 ≠ invalid_index
            rw [hidx]
            exact hii
          · show (r.idToIndex.set h.id i).getD h.id 0 <
              (((ensure_size r.indexToId (i + 1) invalid_id).set
                (r.idToIndex.getD h.id 0) invalid_id).set i h.id).length
            rw [hidx]
            simpa using hilen
          · show (((ensure_size r.indexToId (i + 1) invalid_id).set
                (r.idToIndex.getD h.id 0) invalid_id).set i h.id).getD
              ((r.idToIndex.set h.id i).getD h.id 0) 0 = h.id
            rw [hidx]
            exact getD_set_self _ _ _ _ (by simpa using hilen)
        show HandleRegister.get_index
            { r with
              idToIndex := r.idToIndex.set h.id i,
              indexToId := ((ensure_size r.indexToId (i + 1) invalid_id).set
                  (r.idToIndex.getD h.id 0) invalid_id).set i h.id }
            h = i
        unfold HandleRegister.get_index
        rw [if_neg (by rw [hval2]; simp)]
        exact hidx

theorem c6_update_contract_witness :
    (HandleRegister.update
        { idToIndex := [0], indexToId := [0], generations := [0], freeIds := [] }
        { id := 0, generation := 0 } 1).2.get_index { id := 0, generation := 0 } = 1 :=
  (((c6_update_contract _ _ 1).2 (by decide)).2.1 (by decide)).1

/-- C6 counterexample: the claim says a valid handle's `update` fails only
when the target index is owned by a DIFFERENT id; here index 0 is owned by the
handle's own id 0, yet `update` returns `false` (with no mutation) instead of
succeeding. -/
theorem c6_update_counterexample :
    HandleRegister.is_valid
        { idToIndex := [0], indexToId := [0], generations := [0], freeIds := [] }
        { id := 0, generation := 0 } = true ∧
    ({ idToIndex := [0], indexToId := [0], generations := [0], freeIds := [] } :
        HandleRegister).indexToId.getD 0 0 = 0 ∧
    HandleRegister.update
        { idToIndex := [0], indexToId := [0], generations := [0], freeIds := [] }
        { id := 0, generation := 0 } 0 =
      (false,
        { idToIndex := [0], indexToId := [0], generations := [0], freeIds := [] }) := by
  decide

theorem insert_cases (r : HandleRegister) (i : Nat) (h' : Handle)
    (r2 : HandleRegister) (hins : r.insert i = some (h', r2)) :
    ((ensure_size r.indexToId (i + 1) invalid_id).getD i 0 ≠ invalid_id ∧
     h' = { id := invalid_id, generation := 0 } ∧
     r2 = { r with indexToId := ensure_size r.indexToId (i + 1) invalid_id }) ∨
    ((ensure_size r.indexToId (i + 1) invalid_id).getD i 0 = invalid_id ∧
     h'.id ≠ invalid_id ∧
     h'.id < r.generations.length ∧ h'.id < r.idToIndex.length ∧
     h'.generation = r.generations.getD h'.id 0 ∧
     r2.idToIndex = r.idToIndex.set h'.id i ∧
     r2.indexToId = (ensure_size r.indexToId (i + 1) invalid_id).set i h'.id ∧
     r2.generations = r.generations) ∨
    ((ensure_size r.indexToId (i + 1) invalid_id).getD i 0 = invalid_id ∧
     h'.id = r.generations.length % u32size ∧
     h'.generation = (r.generations ++ [0]).getD h'.id 0 ∧
     h'.id < r.idToIndex.length + 1 ∧
     r2.idToIndex = (r.idToIndex ++ [invalid_index]).set h'.id i ∧
     r2.indexToId = (ensure_size r.indexToId (i + 1) invalid_id).set i h'.id ∧
     r2.generations = r.generations ++ [0]) := by
  unfold HandleRegister.insert at hins
  simp only [] at hins
  by_cases hown : (ensure_size r.indexToId (i + 1) invalid_id).getD i 0 = invalid_id
  · rw [if_neg (by rw [hown]; simp)] at hins
    obtain ⟨p, hp, hf⟩ := Option.bind_eq_some.1 hins
    by_cases hid : p.1 = invalid_id
    · rw [if_pos hid] at hf
      split_ifs at hf with hlt
      · simp only [Option.some.injEq, Prod.mk.injEq] at hf
        obtain ⟨hh, hr⟩ := hf
        subst hh
        subst hr
        right; right
        refine ⟨hown, rfl, rfl, by simpa using hlt, rfl, rfl, rfl⟩
    · rw [if_neg hid] at hf
      simp only [Option.some.injEq, Prod.mk.injEq] at hf
      obtain ⟨hh, hr⟩ := hf
      have hb : p.1 < r.generations.length ∧ p.1 < r.idToIndex.length := by
        by_cases hfe : r.freeIds.isEmpty
        · rw [if_pos hfe] at hp
          simp only [Option.some.injEq] at hp
          rw [← hp] at hid
          exact absurd rfl hid
        · rw [if_neg hfe] at hp
          exact insertLoop_bounds _ _ _ _ p hp
      subst hh
      subst hr
      right; left
      exact ⟨hown, hid, hb.1, hb.2, rfl, rfl, rfl, rfl⟩
  · rw [if_pos hown] at hins
    simp only [Option.some.injEq, Prod.mk.injEq] at hins
    obtain ⟨hh, hr⟩ := hins
    subst hh
    subst hr
    left
    exact ⟨hown, rfl, rfl⟩

/-- C5 (amended): if `index` is already owned, `insert` returns the null
handle and creates no new binding. Otherwise, whenever `insert` completes
without undefined behaviour (the C10 theorem exhibits a reachable state where
it does not), the id space is not exhausted, and `index` is not the
`INVALID_INDEX` sentinel (the counterexample theorem shows the claim fails
there), the returned handle is immediately valid and `get_index` yields
`index`. -/
theorem c5_insert_contract (r : HandleRegister) (i : Nat) (h' : Handle)
    (r2 : HandleRegister) (hins : r.insert i = some (h', r2))
    (hgen : r.generations.length < invalid_id) :
    ((ensure_size r.indexToId (i + 1) invalid_id).getD i 0 ≠ invalid_id →
      h' = { id := invalid_id, generation := 0 } ∧
      r2.idToIndex = r.idToIndex ∧ r2.generations = r.generations ∧
      r2.freeIds = r.freeIds) ∧
    ((ensure_size r.indexToId (i + 1) invalid_id).getD i 0 = invalid_id →
      i ≠ invalid_index →
      h'.id ≠ invalid_id ∧ r2.is_valid h' = true ∧ r2.get_index h' = i) := by
  rcases insert_cases r i h' r2 hins with
    ⟨hown, hh, hr⟩ | ⟨hun, hne, hg, hx, hgen', hidT, hrev, hgens⟩ |
    ⟨hun, hid, hgen', hx, hidT, hrev, hgens⟩
  · subst hh
    subst hr
    exact ⟨fun _ => ⟨rfl, rfl, rfl, rfl⟩, fun hun _ => absurd hun hown⟩
  · refine ⟨fun hcontra => absurd hun hcontra, fun _ hii => ?_⟩
    have hvalid : r2.is_valid h' = true := by
      apply (is_valid_iff r2 h').2
      refine ⟨hne, ?_, ?_, ?_, ?_, ?_, ?_⟩
      · rw [hidT]
        simpa using hx
      · rw [hgens]
        exact hg
      · rw [hgens, hgen']
      · rw [hidT, getD_set_self _ _ _ _ (by simpa using hx)]
        exact hii
      · rw [hidT, getD_set_self _ _ _ _ (by simpa using hx), hrev]
        simp only [List.length_set]
        rw [ensure_size_length]
        omega
      · rw [hidT, getD_set_self _ _ _ _ (by simpa using hx), hrev]
        apply getD_set_self
        rw [ensure_size_length]
        omega
    refine ⟨hne, hvalid, ?_⟩
    unfold HandleRegister.get_index
    rw [if_neg (by rw [hvalid]; simp)]
    rw [hidT]
    exact getD_set_self _ _ _ _ (by simpa using hx)
  · have hmod : r.generations.length % u32size = r.generations.length := by
      apply Nat.mod_eq_of_lt
      have h1 : invalid_id < u32size := by decide
      omega
    have hne : h'.id ≠ invalid_id := by
      rw [hid, hmod]
      omega
    refine ⟨fun hcontra => absurd hun hcontra, fun _ hii => ?_⟩
    have hvalid : r2.is_valid h' = true := by
      apply (is_valid_iff r2 h').2
      refine ⟨hne, ?_, ?_, ?_, ?_, ?_, ?_⟩
      · rw [hidT]
        simpa using hx
      · rw [hgens]
        simp only [List.length_append, List.length_singleton]
        rw [hid, hmod]
        omega
      · rw [hgens, hgen']
      · rw [hidT, getD_set_self _ _ _ _ (by simpa using hx)]
        exact hii
      · rw [hidT, getD_set_self _ _ _ _ (by simpa using hx), hrev]
        simp only [List.length_set]
        rw [ensure_size_length]
        omega
      · rw [hidT, getD_set_self _ _ _ _ (by simpa using hx), hrev]
        apply getD_set_self
        rw [ensure_size_length]
        omega
    refine ⟨hne, hvalid, ?_⟩
    unfold HandleRegister.get_index
    rw [if_neg (by rw [hvalid]; simp)]
    rw [hidT]
    exact getD_set_self _ _ _ _ (by simpa using hx)

theorem c5_insert_contract_witness :
    ({ idToIndex := [0], indexToId := [0], generations := [0], freeIds := [] } :
        HandleRegister).is_valid { id := 0, generation := 0 } = true ∧
    ({ idToIndex := [0], indexToId := [0], generations := [0], freeIds := [] } :
        HandleRegister).get_index { id := 0, generation := 0 } = 0 :=
  ⟨((c5_insert_contract { } 0 { id := 0, generation := 0 }
      { idToIndex := [0], indexToId := [0], generations := [0], freeIds := [] }
      (by decide) (by decide)).2 (by decide) (by decide)).2.1,
   ((c5_insert_contract { } 0 { id := 0, generation := 0 }
      { idToIndex := [0], indexToId := [0], generations := [0], freeIds := [] }
      (by decide) (by decide)).2 (by decide) (by decide)).2.2⟩

/-- C5 counterexample: on the empty registry, index 4294967295 (the
`INVALID_INDEX` sentinel, a legal `uint32_t` argument owned by no id) is
accepted by `insert`, which returns the non-null handle `{0, 0}`; yet that
handle is immediately invalid and `get_index` on it yields `INVALID_INDEX`,
refuting the claim that `insert` on an unowned index always returns an
immediately valid handle resolving to that index. -/
theorem c5_insert_counterexample :
    (HandleRegister.insert { } 4294967295).map
        (fun p => (p.1, p.2.is_valid p.1, p.2.get_index p.1)) =
      some ({ id := 0, generation := 0 }, false, 4294967295) := by
  have hgrown : ensure_size ([] : List Nat) (4294967295 + 1) invalid_id =
      List.replicate 4294967296 invalid_id := by
    unfold ensure_size
    rw [if_pos (by simp)]
    rw [List.nil_append]
    congr 1
  have hins : HandleRegister.insert { } 4294967295 =
      some ({ id := 0, generation := 0 },
        { idToIndex := [4294967295],
          indexToId := (List.replicate 4294967296 invalid_id).set 4294967295 0,
          generations := [0], freeIds := [] }) := by
    unfold HandleRegister.insert
    simp only []
    rw [hgrown]
    rw [if_neg (by
      rw [getD_replicate 4294967296 invalid_id 4294967295 0 (by omega)]
      simp)]
    rw [if_pos (show ([] : List Nat).isEmpty = true from rfl), Option.some_bind]
    simp only []
    rw [if_pos trivial]
    rw [if_pos (by decide)]
    simp only [List.nil_append, List.length_nil, Nat.zero_mod,
      List.getD_cons_zero, List.set_cons_zero, List.reverse_nil]
  rw [hins]
  have hval : HandleRegister.is_valid
      { idToIndex := [4294967295],
        indexToId := (List.replicate 4294967296 invalid_id).set 4294967295 0,
        generations := [0], freeIds := [] }
      { id := 0, generation := 0 } = false := by
    unfold HandleRegister.is_valid
    rw [if_neg (by decide), if_pos (Or.inl (by decide))]
  have hgi : HandleRegister.get_index
      { idToIndex := [4294967295],
        indexToId := (List.replicate 4294967296 invalid_id).set 4294967295 0,
        generations := [0], freeIds := [] }
      { id := 0, generation := 0 } = 4294967295 := by
    unfold HandleRegister.get_index
    rw [if_pos hval]
    rfl
  rw [Option.map_some']
  rw [hval, hgi]

/-- C8 (amended): erasing a valid handle and then re-inserting so that the
returned handle reuses the freed id yields generation `(old + 1) % 2^32` —
strictly greater than the erased handle's generation except when the 32-bit
counter wraps (see the counterexample theorem) — and afterwards every handle
carrying that id with any other generation, the just-erased one included, is
invalid. -/
theorem c8_generation_on_reuse (s : HandleRegister) (h : Handle) (i : Nat)
    (h' : Handle) (s2 : HandleRegister)
    (hv : s.is_valid h = true)
    (hins : (s.erase h).insert i = some (h', s2))
    (hid : h'.id = h.id) :
    h'.generation = (h.generation + 1) % u32size ∧
    (∀ g, g ≠ (h.generation + 1) % u32size →
      s2.is_valid { id := h.id, generation := g } = false) ∧
    s2.is_valid h = false := by
  obtain ⟨c1, c2, c3, c4, c5, c6, c7⟩ := (is_valid_iff s h).1 hv
  have herase := erase_eq_of_valid s h hv
  have hglen : (s.erase h).generations.length = s.generations.length := by
    rw [herase]
    exact List.length_set _ _ _
  have hgget : (s.erase h).generations.getD h.id 0 =
      (h.generation + 1) % u32size := by
    rw [herase]
    show (s.generations.set h.id
        ((s.generations.getD h.id 0 + 1) % u32size)).getD h.id 0 = _
    rw [getD_set_self _ _ _ _ (by simpa using c3), c4]
  rcases insert_cases (s.erase h) i h' s2 hins with
    ⟨hown, hh, hr⟩ | ⟨hun, hne, hg, hx, hgen', hidT, hrev, hgens⟩ |
    ⟨hun, hidm, hgen', hx, hidT, hrev, hgens⟩
  · rw [hh] at hid
    simp only [] at hid
    exact absurd hid.symm c1
  · have hs2g : s2.generations.getD h.id 0 = (h.generation + 1) % u32size := by
      rw [hgens]
      exact hgget
    have hmain : ∀ g, g ≠ (h.generation + 1) % u32size →
        s2.is_valid { id := h.id, generation := g } = false := by
      intro g hg'
      cases hvv : s2.is_valid { id := h.id, generation := g } with
      | false => rfl
      | true =>
        obtain ⟨d1, d2, d3, d4, d5, d6, d7⟩ := (is_valid_iff _ _).1 hvv
        rw [hs2g] at d4
        exact absurd d4.symm hg'
    refine ⟨?_, hmain, ?_⟩
    · rw [hgen', hid]
      exact hgget
    · exact hmain h.generation (succ_mod_u32_ne h.generation).symm
  · have hs2g : s2.generations.getD h.id 0 = (h.generation + 1) % u32size := by
      rw [hgens]
      rw [getD_append_left _ _ _ _ (by rw [hglen]; exact c3)]
      exact hgget
    have hmain : ∀ g, g ≠ (h.generation + 1) % u32size →
        s2.is_valid { id := h.id, generation := g } = false := by
      intro g hg'
      cases hvv : s2.is_valid { id := h.id, generation := g } with
      | false => rfl
      | true =>
        obtain ⟨d1, d2, d3, d4, d5, d6, d7⟩ := (is_valid_iff _ _).1 hvv
        rw [hs2g] at d4
        exact absurd d4.symm hg'
    refine ⟨?_, hmain, ?_⟩
    · rw [hgen', hid]
      rw [getD_append_left _ _ _ _ (by rw [hglen]; exact c3)]
      exact hgget
    · exact hmain h.generation (succ_mod_u32_ne h.generation).symm

theorem c8_generation_on_reuse_witness :
    ({ id := 0, generation := 1 } : Handle).generation = (0 + 1) % u32size ∧
    HandleRegister.is_valid
      { idToIndex := [0], indexToId := [0], generations := [1], freeIds := [] }
      { id := 0, generation := 0 } = false := by
  have h1 := c8_generation_on_reuse
    { idToIndex := [0], indexToId := [0], generations := [0], freeIds := [] }
    { id := 0, generation := 0 } 0 { id := 0, generation := 1 }
    { idToIndex := [0], indexToId := [0], generations := [1], freeIds := [] }
    (by decide) (by decide) (by decide)
  exact ⟨h1.1, h1.2.2⟩

/-- C8 counterexample: in the reachable state whose single id 0 has generation
4294967295 (reached after 2^32 erase/insert cycles of that id), erasing the
valid handle `{0, 4294967295}` and re-inserting reuses id 0 with generation
`0`, which is NOT strictly greater than the previously issued generation
4294967295 — the 32-bit generation counter wraps. -/
theorem c8_generation_counterexample :
    HandleRegister.is_valid
        { idToIndex := [0], indexToId := [0], generations := [4294967295],
          freeIds := [] }
        { id := 0, generation := 4294967295 } = true ∧
    HandleRegister.insert
        (HandleRegister.erase
          { idToIndex := [0], indexToId := [0], generations := [4294967295],
            freeIds := [] }
          { id := 0, generation := 4294967295 })
        0 =
      some ({ id := 0, generation := 0 },
        { idToIndex := [0], indexToId := [0], generations := [0], freeIds := [] }) ∧
    ¬ (0 : Nat) > 4294967295 := by
  refine ⟨by decide, by decide, by omega⟩

/-- C1 (code bug): the public call sequence `resize(2,2); insert(0);
insert(1)` on the empty registry breaks the partial-bijection invariant.
`HandleRegister::resize` executes `m_freeIds.resize(handleCapacity)`, filling
the free-id stack with value-initialized zeros (`[0, 0]`), so both inserts pop
id 0: they return the SAME handle `{0,0}` and the final reverse map is
`[0, 0]` — two live physical indices (0 and 1) map back to the same id 0,
while `id_to_index[0] = 1` silently abandons index 0. -/
theorem c1_resize_breaks_partial_bijection :
    HandleRegister.resize { } 2 2 =
      .ok { idToIndex := [4294967295, 4294967295],
            indexToId := [4294967295, 4294967295],
            generations := [0, 0], freeIds := [0, 0] } ∧
    HandleRegister.insert
        { idToIndex := [4294967295, 4294967295],
          indexToId := [4294967295, 4294967295],
          generations := [0, 0], freeIds := [0, 0] } 0 =
      some ({ id := 0, generation := 0 },
        { idToIndex := [0, 4294967295], indexToId := [0, 4294967295],
          generations := [0, 0], freeIds := [0] }) ∧
    HandleRegister.insert
        { idToIndex := [0, 4294967295], indexToId := [0, 4294967295],
          generations := [0, 0], freeIds := [0] } 1 =
      some ({ id := 0, generation := 0 },
        { idToIndex := [1, 4294967295], indexToId := [0, 0],
          generations := [0, 0], freeIds := [] }) ∧
    ({ idToIndex := [1, 4294967295], indexToId := [0, 0],
       generations := [0, 0], freeIds := [] } :
        HandleRegister).indexToId.getD 0 0 =
      ({ idToIndex := [1, 4294967295], indexToId := [0, 0],
         generations := [0, 0], freeIds := [] } :
          HandleRegister).indexToId.getD 1 0 ∧
    (0 : Nat) ≠ 1 := by
  exact ⟨by decide, by decide, by decide, by decide, by decide⟩

/-- C7 (code bug): starting empty, `insert(0); insert(1); insert(2)` creates
live ids 0,1,2; `erase({2,0})` retires id 2; `resize(2,3)` then shrinks the
handle capacity from 3 to 2 but skips the out-of-range sweep (it only runs
when `handleCapacity < m_freeIds.size()`; 2 < 1 is false) and
`m_freeIds.resize(2)` appends a value-initialized 0 — the free stack ends as
`[2, 0]`: it retains id 2 although `2 ≥ 2` is out of the new array bounds, and
gains id 0 which was never retired by `erase` (it is still live:
`id_to_index[0] = 0`). -/
theorem c7_resize_free_stack_corruption :
    HandleRegister.insert { } 0 =
      some ({ id := 0, generation := 0 },
        { idToIndex := [0], indexToId := [0], generations := [0], freeIds := [] }) ∧
    HandleRegister.insert
        { idToIndex := [0], indexToId := [0], generations := [0], freeIds := [] } 1 =
      some ({ id := 1, generation := 0 },
        { idToIndex := [0, 1], indexToId := [0, 1],
          generations := [0, 0], freeIds := [] }) ∧
    HandleRegister.insert
        { idToIndex := [0, 1], indexToId := [0, 1],
          generations := [0, 0], freeIds := [] } 2 =
      some ({ id := 2, generation := 0 },
        { idToIndex := [0, 1, 2], indexToId := [0, 1, 2],
          generations := [0, 0, 0], freeIds := [] }) ∧
    HandleRegister.erase
        { idToIndex := [0, 1, 2], indexToId := [0, 1, 2],
          generations := [0, 0, 0], freeIds := [] }
        { id := 2, generation := 0 } =
      { idToIndex := [0, 1, 4294967295], indexToId := [0, 1, 4294967295],
        generations := [0, 0, 1], freeIds := [2] } ∧
    HandleRegister.resize
        { idToIndex := [0, 1, 4294967295], indexToId := [0, 1, 4294967295],
          generations := [0, 0, 1], freeIds := [2] } 2 3 =
      .ok { idToIndex := [0, 1], indexToId := [0, 1, 4294967295],
            generations := [0, 0], freeIds := [2, 0] } ∧
    ¬ (2 : Nat) < 2 ∧
    ({ idToIndex := [0, 1], indexToId := [0, 1, 4294967295],
       generations := [0, 0], freeIds := [2, 0] } :
        HandleRegister).idToIndex.getD 0 0 = 0 := by
  exact ⟨by decide, by decide, by decide, by decide, by decide, by decide, by decide⟩

/-- C10 (code bug): in the state reached by `insert(0); insert(1); insert(2);
erase({2,0}); resize(1,1)` the free stack is `[2]` and every free id is out of
range of the shrunken arrays (`resize` skipped the sweep because 1 < 1 is
false). `insert(1)` — index 1 is unowned, so the scan runs — pops id 2, finds
it out of range, and loops back to `m_freeIds.back()` on the now-empty vector:
the embedding returns `none`, the marker for that out-of-bounds access
(undefined behaviour in the source). -/
theorem c10_insert_pops_empty_free_stack :
    HandleRegister.erase
        { idToIndex := [0, 1, 2], indexToId := [0, 1, 2],
          generations := [0, 0, 0], freeIds := [] }
        { id := 2, generation := 0 } =
      { idToIndex := [0, 1, 4294967295], indexToId := [0, 1, 4294967295],
        generations := [0, 0, 1], freeIds := [2] } ∧
    HandleRegister.resize
        { idToIndex := [0, 1, 4294967295], indexToId := [0, 1, 4294967295],
          generations := [0, 0, 1], freeIds := [2] } 1 1 =
      .ok { idToIndex := [0], indexToId := [0],
            generations := [0], freeIds := [2] } ∧
    HandleRegister.insert
        { idToIndex := [0], indexToId := [0],
          generations := [0], freeIds := [2] } 1 = none := by
  exact ⟨by decide, by decide, by decide⟩

/-- C2 (code bug): in a two-row one-column store holding values 10 and 20,
erasing the valid handle `{0,0}` of row 0 copies row 1's value into row 0 as
the claim describes, but the retarget step fails: `VectorSOA::erase` calls
`update` on the moved row's handle BEFORE retiring the erased handle, so index
0 is still owned by id 0 and `update` returns `false` (a result the source
discards). Afterwards the handle `{1,0}` that owned the moved last row still
resolves to physical index 1 — outside the live range `[0, size = 1)` —
instead of index 0, contradicting the claim and the source's own comment
"Retarget moved element's handle from `last` to `index`". The registry shown
is exactly the one produced by `insert(0); insert(1)` from empty. -/
theorem c2_erase_swap_retarget_fails :
    VectorSOA.erase
        ({ data := [[some 10, some 20]], capacity := 2, size := 2,
           handles := { idToIndex := [0, 1], indexToId := [0, 1],
                        generations := [0, 0], freeIds := [] } } : VectorSOA Nat)
        { id := 0, generation := 0 } =
      (true,
        { data := [[some 20, some 20]], capacity := 2, size := 1,
          handles := { idToIndex := [4294967295, 1],
                       indexToId := [4294967295, 1],
                       generations := [1, 0], freeIds := [0] } }) ∧
    HandleRegister.get_index
        { idToIndex := [4294967295, 1], indexToId := [4294967295, 1],
          generations := [1, 0], freeIds := [0] }
        { id := 1, generation := 0 } = 1 ∧
    (1 : Nat) ≠ 0 := by
  exact ⟨by decide, by decide, by decide⟩

/-- C3 (code bug): `VectorSOA::emplace` holds only a `// TODO` comment where
the passed values should be written into the columns. On an empty one-column
store, `emplace [42]` grows the capacity to 1 (doubling with minimum 1),
registers the new row and returns the handle `{0,0}` as the claim says, but
the column cell of the new row keeps the uninitialized buffer value (`none`)
instead of `some 42`: the row at the old size does not hold the passed
values. -/
theorem c3_emplace_never_writes_values :
    VectorSOA.emplace ({ data := [[]] } : VectorSOA Nat) [42] =
      some ({ id := 0, generation := 0 },
        { data := [[none]], capacity := 1, size := 1,
          handles := { idToIndex := [0], indexToId := [0],
                       generations := [0], freeIds := [] } }) ∧
    HandleRegister.get_index
        { idToIndex := [0], indexToId := [0], generations := [0], freeIds := [] }
        { id := 0, generation := 0 } = 0 ∧
    (none : Option Nat) ≠ some 42 := by
  exact ⟨by decide, by decide, by decide⟩
